import Mathlib

/-!
Verification development for the ScyllaDB `loading_cache` (utils/loading_cache.hh
and the "simple variant used for permissions" header).

The cache is shallowly embedded.  Keys and values are `Nat`; time points of
`seastar::lowres_clock` are `Nat` milliseconds and every call that reads the
clock takes the current time as an explicit `now` parameter.  The entry-size
predicate `EntrySize` is an explicit function `esz : Nat → Nat`.  The
single-threaded cooperative scheduling model is rendered by splitting each
asynchronous operation at its suspension point: the continuation that runs
after an `await` is a separate Lean function applied to the cache state as it
is at resume time, so state changes during the suspension are expressible.

Two source variants are embedded side by side and suffixed `A` and `B`:
  * variant A: `utils/loading_cache.hh` (reload always enabled, separate
    `lru_entry` anchor, `entry_is_too_big` size check in `get`);
  * variant B: the permissions variant (template flag `ReloadEnabled`,
    `get_ptr`/`erase`/`remove_if`/`at`, no size check on install).

In both variants every resident (ready) entry is simultaneously a member of
the hash index and of the intrusive LRU list, and the two containers always
hold exactly the same entries at quiescence points; a resident entry is
therefore modelled once, and the cache state is the LRU-ordered list of
resident entries (MRU at the front) together with the `_current_size`
accumulator, which the C++ code maintains separately from the list.
-/

set_option autoImplicit false

namespace LoadingCache

/-- A resident cache entry: `timestamped_val` together with its key.
Fields mirror `_value`, `_loaded`, `_last_read` and `_size` of
`timestamped_val`; the key is recovered from the registry slot by
`loading_values_type::to_key` in the source and is stored inline here. -/
structure TSVal where
  key : Nat
  value : Nat
  loaded : Nat
  last_read : Nat
  size : Nat
deriving DecidableEq

/-- The cache state visible at a quiescence point: the LRU list of resident
entries, MRU at the front and LRU at the back, plus the `_current_size`
accumulator. -/
structure CacheState where
  lru : List TSVal
  current_size : Nat
deriving DecidableEq

/-- Sum of the cached entry sizes, the quantity `_current_size` is supposed
to track (spec invariant I2). -/
def sizeSum (l : List TSVal) : Nat :=
  (l.map TSVal.size).sum

/-- Look a key up among the resident entries.  Models `set_find` of variant A
(a `find` in `_loading_values` followed by the `ready()` check) and
`_set.find(k, Hash(), key_eq())` of variant B. -/
def findEntry (k : Nat) (s : CacheState) : Option TSVal :=
  s.lru.find? (fun e => e.key == k)

/-- Install a freshly loaded value: the `timestamped_val` / `lru_entry`
constructor sets `_loaded = _last_read = now()`, caches
`_size = EntrySize()(value)` and performs `_cache_size += _size`; the
subsequent `value()` / `pointer()` call pushes the entry to the MRU front. -/
def installState (esz : Nat → Nat) (k v now : Nat) (s : CacheState) : CacheState :=
  { lru := ⟨k, v, now, now, esz v⟩ :: s.lru
    current_size := s.current_size + esz v }

/-- Remove the first entry carrying key `k` from the list (the intrusive
`auto_unlink_list_hook::unlink`). -/
def removeFirstKey (k : Nat) : List TSVal → List TSVal
  | [] => []
  | e :: rest => if e.key = k then rest else e :: removeFirstKey k rest

/-- `touch()`: set `_last_read = now()`, unlink the entry and push it to the
front of the LRU list.  `_current_size` is untouched.  Called from `value()`
and `pointer()`; a no-op here when the key is not resident (in the source
`touch` is only reachable for resident entries). -/
def touchState (k now : Nat) (s : CacheState) : CacheState :=
  match findEntry k s with
  | none => s
  | some e =>
      { lru := { e with last_read := now } :: removeFirstKey k s.lru
        current_size := s.current_size }

/-- Predicate-driven bulk eviction: `remove_and_dispose_if` over the LRU list
where the disposer runs the entry destructor, which performs
`_cache_size -= _size` and (variant B) erases the entry from the hash set. -/
def removeIfState (p : TSVal → Bool) (s : CacheState) : CacheState :=
  { lru := s.lru.filter (fun e => ! p e)
    current_size := s.current_size - sizeSum (s.lru.filter p) }

/-- The eviction condition of `drop_expired`: variant B evicts when
`_expiry < since_last_read || (ReloadEnabled && _expiry < since_loaded)`;
variant A is the `reloadEnabled = true` instance of the same condition. -/
def expiredPred (reloadEnabled : Bool) (expiry now : Nat) (e : TSVal) : Bool :=
  decide (expiry < now - e.last_read) || (reloadEnabled && decide (expiry < now - e.loaded))

/-- `drop_expired()`: sample `now()` once, then remove-and-dispose every LRU
entry matching `expiredPred`. -/
def dropExpired (reloadEnabled : Bool) (expiry now : Nat) (s : CacheState) : CacheState :=
  removeIfState (expiredPred reloadEnabled expiry now) s

/-- The loop of `shrink()` on the reversed LRU list: while
`_current_size > _max_size`, destroy the entry at the back (`rbegin`), whose
destructor subtracts its size.  (When the list is empty the source loop could
only run if the size accounting were broken; here it stops.) -/
def shrinkRev (maxSize : Nat) : List TSVal → Nat → List TSVal × Nat
  | [], cs => ([], cs)
  | e :: rest, cs =>
      if maxSize < cs then shrinkRev maxSize rest (cs - e.size) else (e :: rest, cs)

/-- `shrink()`: evict from the LRU tail until `_current_size ≤ _max_size`. -/
def shrinkState (maxSize : Nat) (s : CacheState) : CacheState :=
  let r := shrinkRev maxSize s.lru.reverse s.current_size
  { lru := r.1.reverse, current_size := r.2 }

/-- `timestamped_val::operator=(new_val)` applied to the first entry with the
given key: `_value = new_val; _loaded = now(); _size = EntrySize()(_value)`;
`_last_read` and the list position are not written. -/
def assignInList (esz : Nat → Nat) (k v now : Nat) : List TSVal → List TSVal
  | [] => []
  | e :: rest =>
      if e.key = k then { e with value := v, loaded := now, size := esz v } :: rest
      else e :: assignInList esz k v now rest

/-- Reassignment of a resident value, as performed by a successful reload:
`operator=` also runs `_cache_size -= _size; _cache_size += EntrySize()(new)`.
A no-op when the key is not resident (in the source the assignment is only
reached through a live entry). -/
def reassignState (esz : Nat → Nat) (k v now : Nat) (s : CacheState) : CacheState :=
  match findEntry k s with
  | none => s
  | some e =>
      { lru := assignInList esz k v now s.lru
        current_size := s.current_size - e.size + esz v }

/-- Cache destruction: `~loading_cache` disposes every entry; each destructor
subtracts the entry's cached size from `_current_size`. -/
def clearState (s : CacheState) : CacheState :=
  { lru := [], current_size := s.current_size - sizeSum s.lru }

/-- Errors a foreground `get` can surface: a propagated loader failure, or
variant A's `entry_is_too_big`.  Loader failures themselves are `Except Unit`
values; the embedding maps them into `GetErr.loadFailed` where the source
propagates the exception. -/
inductive GetErr where
  | loadFailed
  | entryTooBig
deriving DecidableEq

/-- Outcome of variant B's `get_ptr`: the `assert(caching_enabled())` failure,
a propagated loader failure, or success carrying the state after the call,
the returned value and whether the loader was invoked. -/
inductive PtrOutcome where
  | assertFailed
  | loadFailed
  | ok (s : CacheState) (v : Nat) (loaderInvoked : Bool)
deriving DecidableEq

/-- Variant B `get_ptr` continuation after `get_or_load` resolves with value
`v` (the lambda re-runs `_set.find`): if some interleaved caller installed the
entry during the suspension, return `i->pointer()` (which touches); otherwise
allocate and insert a new `timestamped_val` and return its pointer.  There is
no size check on this path. -/
def getPtrContB (esz : Nat → Nat) (now k v : Nat) (s : CacheState) : CacheState × Nat :=
  match findEntry k s with
  | some e => (touchState k now s, e.value)
  | none => (installState esz k v now s, v)

/-- Variant B `get_ptr(k, load)` for a sole caller reaching quiescence (no
interleaving during the load, so the continuation resumes on the same state):
assert caching is enabled; on a hit return `i->pointer()` (touch); on a miss
run the loader through `get_or_load` and continue with `getPtrContB`. -/
def getPtrB (expiry : Nat) (esz : Nat → Nat) (load : Nat → Except Unit Nat)
    (now k : Nat) (s : CacheState) : PtrOutcome :=
  if expiry = 0 then PtrOutcome.assertFailed
  else
    match findEntry k s with
    | some e => PtrOutcome.ok (touchState k now s) e.value false
    | none =>
        match load k with
        | Except.error _ => PtrOutcome.loadFailed
        | Except.ok v =>
            let r := getPtrContB esz now k v s
            PtrOutcome.ok r.1 r.2 true

/-- Variant B `get(k)` (reload-enabled): when caching is disabled it is a pure
passthrough to `_load(k)`; otherwise it delegates to `get_ptr(k, _load)` and
dereferences the returned pointer.  Result: state after the call, the value or
error, and whether the loader was invoked. -/
def getB (expiry : Nat) (esz : Nat → Nat) (load : Nat → Except Unit Nat)
    (now k : Nat) (s : CacheState) : CacheState × Except GetErr Nat × Bool :=
  if expiry = 0 then
    (s, (load k).mapError (fun _ => GetErr.loadFailed), true)
  else
    match getPtrB expiry esz load now k s with
    | PtrOutcome.assertFailed => (s, Except.error GetErr.loadFailed, false)
    | PtrOutcome.loadFailed => (s, Except.error GetErr.loadFailed, true)
    | PtrOutcome.ok s2 v invoked => (s2, Except.ok v, invoked)

/-- Variant A `get` continuation after `get_or_load` resolves (the `.then`
lambda): if the value is already `ready()` return it (touch); otherwise check
`ts_val_ptr->size() > _max_size` and fail with `entry_is_too_big` installing
nothing, else construct the `lru_entry` (adding the size to `_current_size`)
and return the value (which touches). -/
def getContA (maxSize : Nat) (esz : Nat → Nat) (now k v : Nat) (s : CacheState) :
    CacheState × Except GetErr Nat :=
  match findEntry k s with
  | some e => (touchState k now s, Except.ok e.value)
  | none =>
      if esz v > maxSize then (s, Except.error GetErr.entryTooBig)
      else (installState esz k v now s, Except.ok v)

/-- Variant A `get(k)` for a sole caller reaching quiescence: passthrough when
caching is disabled; on a hit `get_or_load` hands back the resident value
without invoking the loader and the continuation returns it; on a miss the
loader runs (failures propagate to the caller and nothing is cached) and the
continuation `getContA` installs or rejects the fresh value. -/
def getA (expiry maxSize : Nat) (esz : Nat → Nat) (load : Nat → Except Unit Nat)
    (now k : Nat) (s : CacheState) : CacheState × Except GetErr Nat × Bool :=
  if expiry = 0 then
    (s, (load k).mapError (fun _ => GetErr.loadFailed), true)
  else
    match findEntry k s with
    | some _ =>
        let r := getContA maxSize esz now k 0 s
        (r.1, r.2, false)
    | none =>
        match load k with
        | Except.error _ => (s, Except.error GetErr.loadFailed, true)
        | Except.ok v =>
            let r := getContA maxSize esz now k v s
            (r.1, r.2, true)

/-- Variant A `reload` continuation (the `then_wrapped` lambda).  The key was
captured by value before the await, so the continuation is a function of the
key `k`, the loader outcome `res` and the state `s` at resume time: re-run
`set_find(key)`; if the entry is gone return immediately; otherwise
`*it = f.get0()` inside a try/catch that swallows loader failures.  The
returned future is always ready and successful, rendered as `Except.ok`. -/
def reloadContA (esz : Nat → Nat) (now k : Nat) (res : Except Unit Nat)
    (s : CacheState) : Except Unit CacheState :=
  match findEntry k s with
  | none => Except.ok s
  | some _ =>
      match res with
      | Except.ok v => Except.ok (reassignState esz k v now s)
      | Except.error _ => Except.ok s

/-- Variant B `reload` continuation (the `then_wrapped` lambda).  The entry is
captured by reference (`[this, &ts_val]`) before the await and the lambda
dereferences it (`ts_val = f.get0()`, and `ts_val.key()` in the failure logs)
without any re-lookup.  If the entry was evicted during the suspension the
reference dangles and the access is undefined, rendered as `none`; while the
entry is still resident the behaviour matches variant A's assignment. -/
def reloadContB (esz : Nat → Nat) (now k : Nat) (res : Except Unit Nat)
    (s : CacheState) : Option CacheState :=
  match findEntry k s with
  | none => none
  | some _ =>
      match res with
      | Except.ok v => some (reassignState esz k v now s)
      | Except.error _ => some s

/-- Constructor validation.  Both variants return early (success) when
`_expiry == 0`.  Otherwise the reload-enabled constructors (variant A, and
variant B with `ReloadEnabled`) throw a `configuration_exception` when
`_refresh == 0 || _max_size == 0`; variant B's reload-disabled constructor
throws when `_max_size == 0`. -/
def ctorThrows (reloadEnabled : Bool) (maxSize expiry refresh : Nat) : Bool :=
  if expiry = 0 then false
  else if reloadEnabled then decide (refresh = 0) || decide (maxSize = 0)
  else decide (maxSize = 0)

/-- The refresh fan-out of variant A's `on_timer`: each entry is examined at
the clock value current at its turn of the `parallel_for_each` (the code
compares `loaded() + _refresh < loading_cache_clock_type::now()`), so the
input pairs each entry with the clock reading at its examination.  Returns
the entries passed to `reload`. -/
def refreshCallsA (refresh : Nat) (pairs : List (TSVal × Nat)) : List TSVal :=
  (pairs.filter (fun pe => decide (pe.1.loaded + refresh < pe.2))).map Prod.fst

/-- The refresh fan-out of variant B's `on_timer_with_reload`: the lambda
captures `curr_time = timer_start_tp`, the time point read once when the tick
started, and compares `loaded() + _refresh < curr_time`.  The clock readings
at examination time are taken as input only to show they are ignored. -/
def refreshCallsB (refresh timerStart : Nat) (pairs : List (TSVal × Nat)) : List TSVal :=
  (pairs.filter (fun pe => decide (pe.1.loaded + refresh < timerStart))).map Prod.fst

/-- Public operations of the cache, each tagged with the data the source reads
from its environment (clock values, loader outcomes).  `opGet` covers `get` /
`get_ptr` through `getPtrB`; `opTick` is the synchronous prefix of a timer
tick (`drop_expired` then `shrink`; `periodic_rehash` does not touch entries
or sizes); `opReload` is a background reload continuation; `opClear` is cache
destruction. -/
inductive COp where
  | opGet (expiry : Nat) (load : Nat → Except Unit Nat) (now k : Nat)
  | opErase (k : Nat)
  | opRemoveIf (p : Nat → Bool)
  | opTick (reloadEnabled : Bool) (expiry maxSize now : Nat)
  | opReload (now k : Nat) (res : Except Unit Nat)
  | opClear

/-- One public operation as a state transformer (failed calls leave the state
as they found it). -/
def stepOp (esz : Nat → Nat) (op : COp) (s : CacheState) : CacheState :=
  match op with
  | COp.opGet expiry load now k =>
      match getPtrB expiry esz load now k s with
      | PtrOutcome.ok s2 _ _ => s2
      | _ => s
  | COp.opErase k => removeIfState (fun e => e.key == k) s
  | COp.opRemoveIf p => removeIfState (fun e => p e.value) s
  | COp.opTick re expiry maxSize now => shrinkState maxSize (dropExpired re expiry now s)
  | COp.opReload now k res =>
      match reloadContA esz now k res s with
      | Except.ok s2 => s2
      | Except.error _ => s
  | COp.opClear => clearState s

/-- Run a sequence of public operations from a given state. -/
def runOps (esz : Nat → Nat) : List COp → CacheState → CacheState
  | [], s => s
  | op :: rest, s => runOps esz rest (stepOp esz op s)

/-- Spec invariant I2: `_current_size` equals the sum of the cached entry
sizes over the resident entries. -/
def sizeInv (s : CacheState) : Prop :=
  s.current_size = sizeSum s.lru

/-- A sequence of variant B `get` calls, each tagged with the clock value at
the call and the requested key.  Returns the final state and how many times
the loader was invoked. -/
def runGetsB (expiry : Nat) (esz : Nat → Nat) (load : Nat → Except Unit Nat) :
    List (Nat × Nat) → CacheState → CacheState × Nat
  | [], s => (s, 0)
  | c :: rest, s =>
      let r := getB expiry esz load c.1 c.2 s
      let r2 := runGetsB expiry esz load rest r.1
      (r2.1, (if r.2.2 then 1 else 0) + r2.2)

theorem sizeSum_cons (e : TSVal) (l : List TSVal) :
    sizeSum (e :: l) = e.size + sizeSum l := by
  simp [sizeSum]

theorem sizeSum_filter_add (p : TSVal → Bool) (l : List TSVal) :
    sizeSum (l.filter p) + sizeSum (l.filter (fun e => ! p e)) = sizeSum l := by
  induction l with
  | nil => rfl
  | cons e rest ih =>
      cases hp : p e <;>
        simp [List.filter_cons, hp, sizeSum_cons] <;> omega

theorem sizeSum_removeFirstKey (k : Nat) (l : List TSVal) (e : TSVal)
    (h : l.find? (fun x => x.key == k) = some e) :
    sizeSum (removeFirstKey k l) + e.size = sizeSum l := by
  induction l with
  | nil => simp [List.find?] at h
  | cons a rest ih =>
      by_cases hk : a.key = k
      · rw [List.find?_cons_of_pos _ (by simp [hk])] at h
        cases h
        simp [removeFirstKey, hk, sizeSum_cons]
        omega
      · rw [List.find?_cons_of_neg _ (by simp [hk])] at h
        have := ih h
        simp [removeFirstKey, hk, sizeSum_cons]
        omega

theorem size_le_sizeSum (k : Nat) (l : List TSVal) (e : TSVal)
    (h : l.find? (fun x => x.key == k) = some e) :
    e.size ≤ sizeSum l := by
  have := sizeSum_removeFirstKey k l e h
  omega

theorem sizeSum_assignInList (esz : Nat → Nat) (k v now : Nat) (l : List TSVal) (e : TSVal)
    (h : l.find? (fun x => x.key == k) = some e) :
    sizeSum (assignInList esz k v now l) + e.size = sizeSum l + esz v := by
  induction l with
  | nil => simp [List.find?] at h
  | cons a rest ih =>
      by_cases hk : a.key = k
      · rw [List.find?_cons_of_pos _ (by simp [hk])] at h
        cases h
        simp [assignInList, hk, sizeSum_cons]
        omega
      · rw [List.find?_cons_of_neg _ (by simp [hk])] at h
        have := ih h
        simp [assignInList, hk, sizeSum_cons]
        omega

theorem sizeSum_reverse (l : List TSVal) : sizeSum l.reverse = sizeSum l := by
  simp only [sizeSum, List.map_reverse]
  exact List.sum_reverse _

theorem shrinkRev_inv (m : Nat) (l : List TSVal) : ∀ cs : Nat, cs = sizeSum l →
    (shrinkRev m l cs).2 = sizeSum (shrinkRev m l cs).1 := by
  induction l with
  | nil => intro cs h; simpa [shrinkRev] using h
  | cons e rest ih =>
      intro cs h
      rw [sizeSum_cons] at h
      by_cases hm : m < cs
      · simp only [shrinkRev, if_pos hm]
        exact ih (cs - e.size) (by omega)
      · simp only [shrinkRev, if_neg hm]
        rw [sizeSum_cons]
        omega

theorem installState_sizeInv (esz : Nat → Nat) (k v now : Nat) (s : CacheState)
    (h : sizeInv s) : sizeInv (installState esz k v now s) := by
  unfold sizeInv installState at *
  simp [sizeSum_cons]
  omega

theorem touchState_sizeInv (k now : Nat) (s : CacheState)
    (h : sizeInv s) : sizeInv (touchState k now s) := by
  unfold touchState
  cases hf : findEntry k s with
  | none => exact h
  | some e =>
      unfold findEntry at hf
      have h2 := sizeSum_removeFirstKey k s.lru e hf
      unfold sizeInv at *
      simp only [sizeSum_cons]
      omega

theorem removeIfState_sizeInv (p : TSVal → Bool) (s : CacheState)
    (h : sizeInv s) : sizeInv (removeIfState p s) := by
  unfold sizeInv removeIfState at *
  have := sizeSum_filter_add p s.lru
  simp only []
  omega

theorem shrinkState_sizeInv (m : Nat) (s : CacheState)
    (h : sizeInv s) : sizeInv (shrinkState m s) := by
  unfold sizeInv shrinkState at *
  have := shrinkRev_inv m s.lru.reverse s.current_size (by rw [h, sizeSum_reverse])
  simp only []
  rw [sizeSum_reverse]
  exact this

theorem reassignState_sizeInv (esz : Nat → Nat) (k v now : Nat) (s : CacheState)
    (h : sizeInv s) : sizeInv (reassignState esz k v now s) := by
  unfold reassignState
  cases hf : findEntry k s with
  | none => exact h
  | some e =>
      unfold findEntry at hf
      have h2 := sizeSum_assignInList esz k v now s.lru e hf
      have h3 := size_le_sizeSum k s.lru e hf
      unfold sizeInv at *
      simp only []
      omega

theorem clearState_sizeInv (s : CacheState)
    (h : sizeInv s) : sizeInv (clearState s) := by
  unfold sizeInv clearState at *
  show s.current_size - sizeSum s.lru = sizeSum []
  have hz : sizeSum ([] : List TSVal) = 0 := rfl
  omega

theorem getPtrB_ok_sizeInv (expiry : Nat) (esz : Nat → Nat) (load : Nat → Except Unit Nat)
    (now k : Nat) (s s2 : CacheState) (v : Nat) (b : Bool)
    (hs : sizeInv s) (h : getPtrB expiry esz load now k s = PtrOutcome.ok s2 v b) :
    sizeInv s2 := by
  unfold getPtrB at h
  by_cases he : expiry = 0
  · simp [he] at h
  · rw [if_neg he] at h
    cases hf : findEntry k s with
    | some e =>
        rw [hf] at h
        cases h
        exact touchState_sizeInv k now s hs
    | none =>
        rw [hf] at h
        cases hl : load k with
        | error er => rw [hl] at h; cases h
        | ok v0 =>
            rw [hl] at h
            simp only [getPtrContB] at h
            rw [hf] at h
            cases h
            exact installState_sizeInv esz k v0 now s hs

theorem stepOp_sizeInv (esz : Nat → Nat) (op : COp) (s : CacheState)
    (h : sizeInv s) : sizeInv (stepOp esz op s) := by
  cases op with
  | opGet expiry load now k =>
      simp only [stepOp]
      cases hg : getPtrB expiry esz load now k s with
      | ok s2 v b => exact getPtrB_ok_sizeInv expiry esz load now k s s2 v b h hg
      | assertFailed => exact h
      | loadFailed => exact h
  | opErase k => exact removeIfState_sizeInv _ s h
  | opRemoveIf p => exact removeIfState_sizeInv _ s h
  | opTick re expiry maxSize now =>
      exact shrinkState_sizeInv _ _ (removeIfState_sizeInv _ s h)
  | opReload now k res =>
      simp only [stepOp, reloadContA]
      cases hf : findEntry k s with
      | none => exact h
      | some e =>
          cases res with
          | ok v => exact reassignState_sizeInv esz k v now s h
          | error er => exact h
  | opClear => exact clearState_sizeInv s h

theorem runOps_sizeInv (esz : Nat → Nat) (ops : List COp) : ∀ s : CacheState,
    sizeInv s → sizeInv (runOps esz ops s) := by
  induction ops with
  | nil => intro s h; exact h
  | cons op rest ih =>
      intro s h
      exact ih (stepOp esz op s) (stepOp_sizeInv esz op s h)

theorem assignInList_map_key (esz : Nat → Nat) (k v now : Nat) (l : List TSVal) :
    (assignInList esz k v now l).map TSVal.key = l.map TSVal.key := by
  induction l with
  | nil => rfl
  | cons a rest ih =>
      by_cases hk : a.key = k
      · simp [assignInList, hk]
      · simp [assignInList, hk, ih]

theorem assignInList_map_lastRead (esz : Nat → Nat) (k v now : Nat) (l : List TSVal) :
    (assignInList esz k v now l).map TSVal.last_read = l.map TSVal.last_read := by
  induction l with
  | nil => rfl
  | cons a rest ih =>
      by_cases hk : a.key = k
      · simp [assignInList, hk]
      · simp [assignInList, hk, ih]

theorem assignInList_find? (esz : Nat → Nat) (k v now : Nat) (l : List TSVal) (e : TSVal)
    (h : l.find? (fun x => x.key == k) = some e) :
    (assignInList esz k v now l).find? (fun x => x.key == k) =
      some { e with value := v, loaded := now, size := esz v } := by
  induction l with
  | nil => simp [List.find?] at h
  | cons a rest ih =>
      by_cases hk : a.key = k
      · rw [List.find?_cons_of_pos _ (by simp [hk])] at h
        cases h
        simp only [assignInList, if_pos hk]
        exact List.find?_cons_of_pos _ (by simp [hk])
      · rw [List.find?_cons_of_neg _ (by simp [hk])] at h
        simp only [assignInList, if_neg hk]
        rw [List.find?_cons_of_neg _ (by simp [hk])]
        exact ih h

theorem runGetsB_disabled (esz : Nat → Nat) (load : Nat → Except Unit Nat)
    (calls : List (Nat × Nat)) : ∀ s : CacheState,
    runGetsB 0 esz load calls s = (s, calls.length) := by
  induction calls with
  | nil => intro s; rfl
  | cons c rest ih =>
      intro s
      simp only [runGetsB, getB, if_pos rfl, List.length_cons, ih]
      simp [Nat.add_comm]

/-- Claim C1, counterexample.  The claim states that every `get`/`get_ptr`
call installing a freshly loaded value whose size exceeds `max_size` fails
with the entry-too-big error leaving the state unchanged.  The permissions
variant's `get_ptr` has no size check at all: with `max_size = 4` and an
entry of size `5` (`EntrySize` is the identity, the loader returns `5` for
key `7`), the call succeeds and installs the oversize entry, growing
`_current_size` from `0` to `5` instead of failing with the state intact. -/
theorem C1_counterexample :
    getPtrB 1 (fun x => x) (fun _ => Except.ok 5) 0 7 { lru := [], current_size := 0 } =
      PtrOutcome.ok { lru := [⟨7, 5, 0, 0, 5⟩], current_size := 5 } 5 true ∧
    (fun x : Nat => x) 5 > 4 :=
  ⟨rfl, by decide⟩

/-- Claim C1, amended: in the `utils/loading_cache.hh` variant, a `get` whose
freshly loaded value has `EntrySize` exceeding `_max_size` fails with
`entry_is_too_big` and installs nothing — the state after the call equals the
state before it.  (The permissions variant's `get_ptr` performs no such
check and installs the value, per the counterexample.) -/
theorem C1_oversize_rejected (expiry maxSize : Nat) (esz : Nat → Nat)
    (load : Nat → Except Unit Nat) (now k v : Nat) (s : CacheState)
    (hen : expiry ≠ 0) (hmiss : findEntry k s = none)
    (hload : load k = Except.ok v) (hbig : esz v > maxSize) :
    getA expiry maxSize esz load now k s = (s, Except.error GetErr.entryTooBig, true) := by
  simp only [getA, getContA, if_neg hen, hmiss, hload, if_pos hbig]

/-- Claim C1, witness for the amended theorem at a concrete input. -/
theorem C1_oversize_rejected_witness :
    (1 : Nat) ≠ 0 ∧
    findEntry 7 { lru := [], current_size := 0 } = none ∧
    (fun _ : Nat => (Except.ok 5 : Except Unit Nat)) 7 = Except.ok 5 ∧
    (fun x : Nat => x) 5 > 4 ∧
    getA 1 4 (fun x => x) (fun _ => Except.ok 5) 0 7 { lru := [], current_size := 0 } =
      ({ lru := [], current_size := 0 }, Except.error GetErr.entryTooBig, true) :=
  ⟨by decide, rfl, rfl, by decide,
    C1_oversize_rejected 1 4 (fun x => x) (fun _ => Except.ok 5) 0 7 5 _
      (by decide) rfl rfl (by decide)⟩

/-- Claim C2: for every sequence of public operations (get/get_ptr hits,
misses and failures, erase, remove_if, timer-tick expiry and shrink steps,
background reload/reassignment, destruction) starting from the empty cache,
`_current_size` equals the sum of the cached entry sizes of the resident
entries at every quiescence point (every prefix of `ops` is itself an
instance of this statement). -/
theorem C2_current_size_invariant (esz : Nat → Nat) (ops : List COp) :
    sizeInv (runOps esz ops { lru := [], current_size := 0 }) :=
  runOps_sizeInv esz ops _ rfl

/-- Claim C3, counterexample.  The claim states that for every background
reload the key is captured by value and re-looked-up after the await, the
result being dropped with no access through a pre-await reference if the
entry was evicted.  The permissions variant's `reload` captures the entry by
reference (`[this, &ts_val]`) and its continuation dereferences that
reference (`ts_val = f.get0()`) with no re-lookup; when the entry was evicted
during the suspension (here: the cache is empty at resume time) the access
goes through a dangling reference, modelled as `none` — not the claimed
defined, access-free unchanged state. -/
theorem C3_counterexample :
    ¬ (reloadContB (fun _ => 1) 9 3 (Except.ok 4) { lru := [], current_size := 0 } =
        some { lru := [], current_size := 0 }) := by
  decide

/-- Claim C3, amended: in the `utils/loading_cache.hh` variant the reload
continuation is a function of the key captured by value before the await;
after the await it re-looks the key up, and if the entry was evicted during
the suspension the loaded result is dropped and the state returned unchanged,
whatever the loader produced.  (The permissions variant's `reload` instead
captures the entry by reference and reassigns through it without re-lookup,
per the counterexample.) -/
theorem C3_reload_revalidates (esz : Nat → Nat) (now k : Nat)
    (res : Except Unit Nat) (s : CacheState) (h : findEntry k s = none) :
    reloadContA esz now k res s = Except.ok s := by
  unfold reloadContA
  rw [h]

/-- Claim C3, witness for the amended theorem at a concrete input. -/
theorem C3_reload_revalidates_witness :
    findEntry 3 { lru := [], current_size := 0 } = none ∧
    reloadContA (fun _ => 1) 9 3 (Except.ok 4) { lru := [], current_size := 0 } =
      Except.ok { lru := [], current_size := 0 } :=
  ⟨rfl, C3_reload_revalidates (fun _ => 1) 9 3 (Except.ok 4) _ rfl⟩

/-- Claim C4: when the loader future of a background reload fails, neither
variant propagates the failure out of `reload` (variant A's continuation
always resolves `Except.ok`, and variant B's resolves `some` while the entry
is resident), the entry is not removed, and the whole cache state — value,
`loaded_at`, `last_read_at`, size, LRU position and `_current_size` — is
exactly what it was. -/
theorem C4_reload_failure_swallowed (esz : Nat → Nat) (now k : Nat) (s : CacheState)
    (e : TSVal) (h : findEntry k s = some e) :
    reloadContA esz now k (Except.error ()) s = Except.ok s ∧
    reloadContB esz now k (Except.error ()) s = some s := by
  unfold reloadContA reloadContB
  rw [h]
  exact ⟨rfl, rfl⟩

/-- Claim C4, witness at a concrete input. -/
theorem C4_reload_failure_swallowed_witness :
    findEntry 3 { lru := [⟨3, 7, 0, 0, 1⟩], current_size := 1 } = some ⟨3, 7, 0, 0, 1⟩ ∧
    (reloadContA (fun _ => 1) 9 3 (Except.error ())
          { lru := [⟨3, 7, 0, 0, 1⟩], current_size := 1 } =
        Except.ok { lru := [⟨3, 7, 0, 0, 1⟩], current_size := 1 } ∧
      reloadContB (fun _ => 1) 9 3 (Except.error ())
          { lru := [⟨3, 7, 0, 0, 1⟩], current_size := 1 } =
        some { lru := [⟨3, 7, 0, 0, 1⟩], current_size := 1 }) :=
  ⟨rfl, C4_reload_failure_swallowed (fun _ => 1) 9 3 _ _ rfl⟩

/-- Claim C5: the constructor throws a configuration failure exactly when the
expiry is non-zero and `max_size` is zero, or — in reload mode only — the
refresh period is zero; with a zero expiry the constructor always succeeds
regardless of `max_size` and `refresh`. -/
theorem C5_ctor_validation (re : Bool) (maxSize expiry refresh : Nat) :
    ctorThrows re maxSize expiry refresh = true ↔
      expiry ≠ 0 ∧ (maxSize = 0 ∨ (re = true ∧ refresh = 0)) := by
  unfold ctorThrows
  by_cases he : expiry = 0
  · simp [he]
  · cases re
    · simp [he]
    · simp [he]
      tauto

/-- Claim C6: the expiry sweep evicts an entry present in the LRU list if and
only if `now - last_read_at > expiry` or — in reload mode only —
`now - loaded_at > expiry`; entries meeting neither condition are retained. -/
theorem C6_drop_expired_iff (re : Bool) (expiry now : Nat) (s : CacheState) (e : TSVal)
    (h : e ∈ s.lru) :
    (e ∉ (dropExpired re expiry now s).lru ↔
      expiry < now - e.last_read ∨ (re = true ∧ expiry < now - e.loaded)) := by
  have h1 : e ∈ (dropExpired re expiry now s).lru ↔ expiredPred re expiry now e = false := by
    simp [dropExpired, removeIfState, List.mem_filter, h]
  have h2 : expiredPred re expiry now e = true ↔
      (expiry < now - e.last_read ∨ (re = true ∧ expiry < now - e.loaded)) := by
    unfold expiredPred
    cases re <;> simp
  rw [not_congr h1]
  simp only [Bool.not_eq_false]
  exact h2

/-- Claim C6, witness at a concrete input (an idle entry past the expiry). -/
theorem C6_drop_expired_iff_witness :
    (⟨1, 2, 0, 0, 1⟩ : TSVal) ∈
        ({ lru := [⟨1, 2, 0, 0, 1⟩], current_size := 1 } : CacheState).lru ∧
    ((⟨1, 2, 0, 0, 1⟩ : TSVal) ∉
        (dropExpired true 1 5 { lru := [⟨1, 2, 0, 0, 1⟩], current_size := 1 }).lru ↔
      1 < 5 - (0 : Nat) ∨ (true = true ∧ 1 < 5 - (0 : Nat))) :=
  ⟨by decide, C6_drop_expired_iff true 1 5 _ _ (by decide)⟩

/-- Claim C7, counterexample.  The claim states that the refresh step reloads
exactly the entries with `loaded_at + refresh < timer_start`.  In
`utils/loading_cache.hh` the fan-out compares against
`loading_cache_clock_type::now()` read when each entry is examined, not
against the tick's start time: an entry loaded at `5` with `refresh = 10` is
reloaded when examined at time `20` even though the tick started at `10`
(`5 + 10 < 10` fails), so variant A's call set differs from the
timer-start rule that variant B implements. -/
theorem C7_counterexample :
    refreshCallsA 10 [(⟨1, 1, 5, 5, 1⟩, 20)] ≠
      refreshCallsB 10 10 [(⟨1, 1, 5, 5, 1⟩, 20)] := by
  decide

/-- Claim C7, amended: the permissions variant's `on_timer_with_reload`
reloads exactly the entries whose `loaded_at + refresh < timer_start`, where
`timer_start` is read once when the tick's work starts — the decision ignores
the clock values current when each entry is examined during the fan-out;
`utils/loading_cache.hh`'s `on_timer` instead compares against the
examination-time clock. -/
theorem C7_refresh_decision (refresh timerStart : Nat) (pairs : List (TSVal × Nat)) :
    refreshCallsB refresh timerStart pairs =
      (pairs.map Prod.fst).filter (fun e => decide (e.loaded + refresh < timerStart)) ∧
    refreshCallsA refresh pairs =
      (pairs.filter (fun pe => decide (pe.1.loaded + refresh < pe.2))).map Prod.fst := by
  constructor
  · induction pairs with
    | nil => rfl
    | cons pe rest ih =>
        unfold refreshCallsB at ih ⊢
        rw [List.filter_cons, List.map_cons, List.filter_cons]
        by_cases hc : pe.1.loaded + refresh < timerStart
        · rw [if_pos (by simpa using hc), if_pos (by simpa using hc), List.map_cons, ih]
        · rw [if_neg (by simpa using hc), if_neg (by simpa using hc), ih]
  · rfl

/-- Claim C8: reassigning a resident entry (`timestamped_val::operator=`, the
reload path) replaces the stored value, sets `loaded_at` to the current time
and recomputes the cached size, adjusts the cache total by subtracting the
old size and adding the new one, and leaves every entry's `last_read_at` and
the key order of the LRU list (hence the entry's position) unchanged. -/
theorem C8_reassign_effects (esz : Nat → Nat) (k v now : Nat) (s : CacheState) (e : TSVal)
    (h : findEntry k s = some e) :
    (reassignState esz k v now s).current_size = s.current_size - e.size + esz v ∧
    (reassignState esz k v now s).lru.map TSVal.key = s.lru.map TSVal.key ∧
    (reassignState esz k v now s).lru.map TSVal.last_read = s.lru.map TSVal.last_read ∧
    findEntry k (reassignState esz k v now s) =
      some { e with value := v, loaded := now, size := esz v } := by
  refine ⟨?_, ?_, ?_, ?_⟩ <;> (unfold reassignState; rw [h])
  · exact assignInList_map_key esz k v now s.lru
  · exact assignInList_map_lastRead esz k v now s.lru
  · exact assignInList_find? esz k v now s.lru e h

/-- Claim C8, witness at a concrete input (entry of size 10 reassigned to a
value of size 4 at time 7). -/
theorem C8_reassign_effects_witness :
    findEntry 1 { lru := [⟨1, 10, 2, 3, 10⟩], current_size := 10 } =
      some ⟨1, 10, 2, 3, 10⟩ ∧
    ((reassignState (fun x => x) 1 4 7
          { lru := [⟨1, 10, 2, 3, 10⟩], current_size := 10 }).current_size =
        10 - (⟨1, 10, 2, 3, 10⟩ : TSVal).size + (fun x : Nat => x) 4 ∧
      (reassignState (fun x => x) 1 4 7
            { lru := [⟨1, 10, 2, 3, 10⟩], current_size := 10 }).lru.map TSVal.key =
        [(⟨1, 10, 2, 3, 10⟩ : TSVal)].map TSVal.key ∧
      (reassignState (fun x => x) 1 4 7
            { lru := [⟨1, 10, 2, 3, 10⟩], current_size := 10 }).lru.map TSVal.last_read =
        [(⟨1, 10, 2, 3, 10⟩ : TSVal)].map TSVal.last_read ∧
      findEntry 1 (reassignState (fun x => x) 1 4 7
            { lru := [⟨1, 10, 2, 3, 10⟩], current_size := 10 }) =
        some ⟨1, 4, 7, 3, 4⟩) :=
  ⟨rfl, C8_reassign_effects (fun x => x) 1 4 7 _ _ rfl⟩

/-- Claim C9: with a zero expiry the cache is disabled — `get` degrades to a
pure loader passthrough in both variants, with the state left untouched and
the loader invoked on every call; a sequence of such calls from the empty
cache invokes the loader once per call and leaves the entry count at zero
forever. -/
theorem C9_disabled_passthrough (esz : Nat → Nat) (load : Nat → Except Unit Nat)
    (calls : List (Nat × Nat)) :
    runGetsB 0 esz load calls { lru := [], current_size := 0 } =
      ({ lru := [], current_size := 0 }, calls.length) ∧
    (∀ (maxSize now k : Nat) (s : CacheState),
      getA 0 maxSize esz load now k s =
        (s, (load k).mapError (fun _ => GetErr.loadFailed), true)) ∧
    (∀ (now k : Nat) (s : CacheState),
      getB 0 esz load now k s =
        (s, (load k).mapError (fun _ => GetErr.loadFailed), true)) :=
  ⟨runGetsB_disabled esz load calls _, fun _ _ _ _ => rfl, fun _ _ _ => rfl⟩

/-- Claim C10: the permissions variant's explicit-loader `get_ptr` asserts
`caching_enabled()` — with a zero expiry it fails the assertion instead of
degrading to a loader passthrough — whereas `get` with a zero expiry is
exactly the passthrough that invokes the loader and leaves the state
untouched. -/
theorem C10_get_ptr_requires_caching :
    (∀ (esz : Nat → Nat) (load : Nat → Except Unit Nat) (now k : Nat) (s : CacheState),
      getPtrB 0 esz load now k s = PtrOutcome.assertFailed) ∧
    (∀ (esz : Nat → Nat) (load : Nat → Except Unit Nat) (now k : Nat) (s : CacheState),
      getB 0 esz load now k s =
        (s, (load k).mapError (fun _ => GetErr.loadFailed), true)) :=
  ⟨fun _ _ _ _ _ => rfl, fun _ _ _ _ _ => rfl⟩

end LoadingCache
